import Mathlib

/-!
Verification development for the nerd FlexVolume driver
(`pkg/transfer/flex/main.go`).

The driver is embedded shallowly:

* Go's `path/filepath` functions (`Clean`, `Base`, `Dir`, `Join`) are
  modelled over `List Char`, with `String` wrappers, using the standard
  component-stack formulation of the lexical cleaning algorithm.
* The driver's filesystem and process side effects are modelled by an
  explicit environment `Env` that decides the outcome of every primitive
  operation, and every operation returns the list of attempted actions
  (`FsAction`) as a trace, so ordering and side-effect claims become
  statements about traces.
* The JSON sidecar store is modelled by a JSON value type `JVal` and a
  path-indexed store, mirroring `encoding/json` on the two record types
  involved.
-/

namespace Flex

/-! ## Go `path/filepath` model (Unix rules) -/

/-- Split a character list on `'/'`, accumulating the current component
(reversed) in `acc`.  Mirrors the component scanning done by
`filepath.Clean`. -/
def splitSlash : List Char → List Char → List (List Char)
  | [], acc => [acc.reverse]
  | c :: cs, acc => if c = '/' then acc.reverse :: splitSlash cs [] else splitSlash cs (c :: acc)

/-- A component survives `Clean`'s scanning if it is neither empty nor
the current-directory component `"."`. -/
def goodComp (c : List Char) : Bool := decide (c ≠ [] ∧ c ≠ ['.'])

/-- All surviving components of a path, in order. -/
def goodComps (l : List Char) : List (List Char) :=
  (splitSlash l []).filter goodComp

/-- The `".."`-elimination stack of `filepath.Clean`: a `".."` pops the
most recent ordinary component; at the root it is dropped, and in a
relative path with no component left it is kept. The stack holds the
processed components in reverse order. -/
def elimStack (rooted : Bool) : List (List Char) → List (List Char) → List (List Char)
  | stack, [] => stack
  | stack, c :: cs =>
    if c = ['.', '.'] then
      match stack with
      | [] => if rooted then elimStack rooted [] cs else elimStack rooted [c] cs
      | top :: rest =>
        if top = ['.', '.'] then elimStack rooted (c :: top :: rest) cs
        else elimStack rooted rest cs
    else elimStack rooted (c :: stack) cs

/-- Join components with `'/'` separators (`strings.Join` on `"/"`). -/
def sepJoinL : List (List Char) → List Char
  | [] => []
  | [x] => x
  | x :: xs => x ++ '/' :: sepJoinL xs

/-- Whether a path is rooted (begins with a separator). -/
def isRooted : List Char → Bool
  | '/' :: _ => true
  | _ => false

/-- Render the surviving components back into a path: `"/"` or `"."`
when nothing is left, otherwise the separator-joined components with a
leading separator exactly for rooted paths. -/
def renderClean (rooted : Bool) (comps : List (List Char)) : List Char :=
  match comps, rooted with
  | [], true => ['/']
  | [], false => ['.']
  | cs, true => '/' :: sepJoinL cs
  | cs, false => sepJoinL cs

/-- `filepath.Clean` over characters: lexically shorten the path,
eliminating `"."`, `".."` and repeated separators. -/
def goCleanL (l : List Char) : List Char :=
  renderClean (isRooted l) ((elimStack (isRooted l) [] (goodComps l)).reverse)

/-- `filepath.Clean`. -/
def goClean (s : String) : String := String.mk (goCleanL s.toList)

/-- `filepath.Base` over characters: strip trailing separators and take
the last element; `"."` for the empty path, `"/"` for an all-separator
path. -/
def goBaseL (l : List Char) : List Char :=
  if l = [] then ['.']
  else if l.reverse.dropWhile (fun c => c == '/') = [] then ['/']
  else ((l.reverse.dropWhile (fun c => c == '/')).takeWhile (fun c => c != '/')).reverse

/-- `filepath.Base`. -/
def goBase (s : String) : String := String.mk (goBaseL s.toList)

/-- `filepath.Dir` over characters: everything up to and including the
final separator, cleaned. -/
def goDirL (l : List Char) : List Char :=
  goCleanL ((l.reverse.dropWhile (fun c => c != '/')).reverse)

/-- `filepath.Dir`. -/
def goDir (s : String) : String := String.mk (goDirL s.toList)

/-- `filepath.Join`: drop leading empty elements, join the rest with
separators, and clean the result; the join of nothing is `""`. -/
def goJoin (elems : List String) : String :=
  match elems.dropWhile (fun e => e == "") with
  | [] => ""
  | es => goClean (String.mk (sepJoinL (es.map String.toList)))

/-! ## Driver data model (`pkg/transfer/flex/main.go`) -/

/-- `transfer.Ref`: an object-storage reference. -/
structure Ref where
  Key : String
  Bucket : String
deriving DecidableEq, Repr

/-- `MountOptions`: the JSON options Kubernetes passes to `mount`. -/
structure MountOptions where
  InputS3Key : String
  InputS3Bucket : String
  OutputS3Key : String
  OutputS3Bucket : String
deriving DecidableEq, Repr

/-- `datasetOpts`: input and output references persisted in the sidecar
file. -/
structure datasetOpts where
  Input : Option Ref
  Output : Option Ref
deriving DecidableEq, Repr

/-- `WriteSpace`: the fixed capacity of the backing file (100 MiB). -/
def WriteSpace : Int := 100 * 1024 * 1024

/-- `DirectoryPermissions = os.FileMode(0522)`: the mode for every
directory the driver creates. -/
def DirectoryPermissions : Nat := 0o522

/-- Mode bit test: bit 8..6 = owner r/w/x, bit 2..0 = other r/w/x. -/
def permBit (mode : Nat) (bit : Nat) : Bool := mode / 2 ^ bit % 2 = 1

/-- `RelPathInput`. -/
def RelPathInput : String := "input"

/-- `RelPathFSInFile`. -/
def RelPathFSInFile : String := "volume"

/-- `RelPathFSInFileMount`. -/
def RelPathFSInFileMount : String := "mount"

/-- `RelPathOptions`. -/
def RelPathOptions : String := "json"

/-- `FileSystemExt4`. -/
def FileSystemExt4 : String := "ext4"

/-- `DatasetVolumes.getPath`: derived path
`filepath.Join(mountPath, "..", filepath.Base(mountPath) + "." + name)`. -/
def getPath (mountPath name : String) : String :=
  goJoin [mountPath, "..", goBase mountPath ++ "." ++ name]

/-- The spec's description of the derived path: join the parent
directory of the mount path with `basename(mountPath) ++ "." ++ name`
(this follows the spec's words, to be compared with `getPath`). -/
def specDerivedPath (mountPath name : String) : String :=
  goJoin [goDir mountPath, goBase mountPath ++ "." ++ name]

/-- Render an absolute cleaned path from its components. -/
def absPath (comps : List (List Char)) : String :=
  String.mk ('/' :: sepJoinL comps)

/-- A normal path component: nonempty, not `"."`, not `".."` and free of
separators. -/
def normalCompL (c : List Char) : Prop :=
  c ≠ [] ∧ c ≠ ['.'] ∧ c ≠ ['.', '.'] ∧ '/' ∉ c

instance (c : List Char) : Decidable (normalCompL c) := by
  unfold normalCompL
  infer_instance

/-! ## Effect/trace model of the driver

Every filesystem or collaborator operation the driver attempts is
recorded as an `FsAction`; an environment `Env` decides each
operation's outcome (`none` = success, `some e` = failure with
underlying message `e`; for external commands the message is the
captured standard-error stream). -/

/-- One attempted primitive operation of the driver. -/
inductive FsAction where
  | createFile (p : String)
  | truncate (p : String) (size : Int)
  | writeFile (p : String)
  | openFile (p : String)
  | decodeFile (p : String)
  | removeFile (p : String)
  | removeAll (p : String)
  | mkdir (p : String) (mode : Nat)
  | mkdirAll (p : String) (mode : Nat)
  | execMkfs (fs : String) (p : String)
  | execMount (args : List String)
  | execUmount (p : String)
  | newS3 (bucket : String)
  | download (r : Ref) (dst : String)
  | upload (r : Ref) (src : String)
deriving DecidableEq, Repr

/-- Outcome environment: for every primitive operation, whether it
succeeds and, on failure, the underlying error message (for external
commands: the captured stderr). `storedOpts` is the value a successful
sidecar decode yields. -/
structure Env where
  createFile : String → Option String
  truncate : String → Int → Option String
  encodeTo : String → Option String
  openFile : String → Option String
  decodeFile : String → Option String
  storedOpts : String → datasetOpts
  remove : String → Option String
  removeAll : String → Option String
  mkdir : String → Option String
  mkdirAll : String → Option String
  mkfs : String → String → Option String
  mountCmd : List String → Option String
  umountCmd : String → Option String
  newS3 : String → Option String
  download : Ref → String → Option String
  upload : Ref → String → Option String

/-- `errors.Wrap(err, msg)` on a non-nil error: `msg ++ ": " ++ err`. -/
def wrapE (msg e : String) : String := msg ++ ": " ++ e

/-- Whitespace as recognised by `strings.TrimSpace` (the ASCII cases). -/
def isSpaceChar (c : Char) : Bool :=
  decide (c = ' ' ∨ c = '\t' ∨ c = '\n' ∨ c = '\r' ∨ c = '\x0b' ∨ c = '\x0c')

/-- `strings.TrimSpace` over characters. -/
def trimL (l : List Char) : List Char :=
  ((l.dropWhile isSpaceChar).reverse.dropWhile isSpaceChar).reverse

/-- `strings.TrimSpace`. -/
def goTrim (s : String) : String := String.mk (trimL s.toList)

/-- `DatasetVolumes.writeDatasetOpts`: validate the options, then create
the sidecar file and encode the dataset options into it. -/
def writeDatasetOptsE (env : Env) (path : String) (opts : MountOptions) :
    Except String datasetOpts × List FsAction :=
  if opts.InputS3Key ≠ "" ∧ opts.InputS3Bucket = "" then
    (.error "input key configured without a bucket", [])
  else if opts.OutputS3Key ≠ "" ∧ opts.OutputS3Bucket = "" then
    (.error "output key configured without a bucket", [])
  else
    let dsopts : datasetOpts :=
      { Input := if opts.InputS3Key ≠ "" then some ⟨opts.InputS3Key, opts.InputS3Bucket⟩ else none
        Output := if opts.OutputS3Key ≠ "" then some ⟨opts.OutputS3Key, opts.OutputS3Bucket⟩ else none }
    match env.createFile path with
    | some e => (.error (wrapE "failed to create metadata file" e), [.createFile path])
    | none =>
      match env.encodeTo path with
      | some e =>
          (.error (wrapE "failed to encode metadata" e), [.createFile path, .writeFile path])
      | none => (.ok dsopts, [.createFile path, .writeFile path])

/-- `DatasetVolumes.readDatasetOpts`: open the sidecar file and decode
the dataset options from it. -/
def readDatasetOptsE (env : Env) (path : String) :
    Except String datasetOpts × List FsAction :=
  match env.openFile path with
  | some e => (.error (wrapE "failed to open metadata file" e), [.openFile path])
  | none =>
    match env.decodeFile path with
    | some e => (.error (wrapE "failed to decode metadata" e), [.openFile path, .decodeFile path])
    | none => (.ok (env.storedOpts path), [.openFile path, .decodeFile path])

/-- `DatasetVolumes.deleteDatasetOpts`: remove the sidecar file. -/
def deleteDatasetOptsE (env : Env) (path : String) : Option String × List FsAction :=
  ((env.remove path).map (wrapE "failed to delete metadata file"), [.removeFile path])

/-- `DatasetVolumes.createFSInFile`: create the backing file, extend it
to `size` bytes, and run `mkfs -t <fs> <path>`; a non-zero `mkfs` exit
yields an error carrying the trimmed captured stderr. -/
def createFSInFileE (env : Env) (path fs : String) (size : Int) :
    Option String × List FsAction :=
  match env.createFile path with
  | some e => (some (wrapE "failed to create file system file" e), [.createFile path])
  | none =>
    match env.truncate path size with
    | some e =>
        (some (wrapE "failed to allocate file system size" e),
         [.createFile path, .truncate path size])
    | none =>
      match env.mkfs fs path with
      | some stderrOut =>
          (some (wrapE "failed to execute mkfs command" (goTrim stderrOut)),
           [.createFile path, .truncate path size, .execMkfs fs path])
      | none => (none, [.createFile path, .truncate path size, .execMkfs fs path])

/-- `DatasetVolumes.destroyFSInFile`: remove the backing file. -/
def destroyFSInFileE (env : Env) (path : String) : Option String × List FsAction :=
  ((env.removeAll path).map (wrapE "failed to delete fs-in-file file"), [.removeAll path])

/-- `DatasetVolumes.provisionInput`: create the input directory and, if
an input reference is configured, set up the S3 transfer and download
into it. -/
def provisionInputE (env : Env) (path : String) (input : Option Ref) :
    Option String × List FsAction :=
  match env.mkdirAll path with
  | some e =>
      (some (wrapE "failed to create input directory" e), [.mkdirAll path DirectoryPermissions])
  | none =>
    match input with
    | none => (none, [.mkdirAll path DirectoryPermissions])
    | some ref =>
      match env.newS3 ref.Bucket with
      | some e =>
          (some (wrapE "failed to set up S3 transfer" e),
           [.mkdirAll path DirectoryPermissions, .newS3 ref.Bucket])
      | none =>
        match env.download ref path with
        | some e =>
            (some (wrapE "failed to download data from S3" e),
             [.mkdirAll path DirectoryPermissions, .newS3 ref.Bucket, .download ref path])
        | none =>
            (none, [.mkdirAll path DirectoryPermissions, .newS3 ref.Bucket, .download ref path])

/-- `DatasetVolumes.destroyInput`: remove the input directory. -/
def destroyInputE (env : Env) (path : String) : Option String × List FsAction :=
  ((env.removeAll path).map (wrapE "failed to destroy input directory"), [.removeAll path])

/-- `DatasetVolumes.mountFSInFile`: create the mount point and run
`mount <volumePath> <mountPath>`. -/
def mountFSInFileE (env : Env) (volumePath mountPath : String) :
    Option String × List FsAction :=
  match env.mkdir mountPath with
  | some e =>
      (some (wrapE "failed to create mount directory" e),
       [.mkdir mountPath DirectoryPermissions])
  | none =>
    match env.mountCmd [volumePath, mountPath] with
    | some stderrOut =>
        (some (wrapE "failed to execute mount command" (goTrim stderrOut)),
         [.mkdir mountPath DirectoryPermissions, .execMount [volumePath, mountPath]])
    | none =>
        (none, [.mkdir mountPath DirectoryPermissions, .execMount [volumePath, mountPath]])

/-- `DatasetVolumes.unmountFSInFile`: run `umount <mountPath>`, then
remove the mount path recursively. -/
def unmountFSInFileE (env : Env) (mountPath : String) : Option String × List FsAction :=
  match env.umountCmd mountPath with
  | some stderrOut =>
      (some (wrapE "failed to unmount fs-in-file" (goTrim stderrOut)), [.execUmount mountPath])
  | none =>
    match env.removeAll mountPath with
    | some e =>
        (some (wrapE "failed to delete fs-in-file mount point" e),
         [.execUmount mountPath, .removeAll mountPath])
    | none => (none, [.execUmount mountPath, .removeAll mountPath])

/-- The argument list of the overlay mount command. -/
def overlayArgs (upperDir workDir lowerDir mountPath : String) : List String :=
  ["-t", "overlay", "overlay", "-o",
   "lowerdir=" ++ lowerDir ++ ",upperdir=" ++ upperDir ++ ",workdir=" ++ workDir, mountPath]

/-- `DatasetVolumes.mountOverlayFS`: create the upper and work
directories (both attempts run before errors are checked), then run the
overlay mount command. -/
def mountOverlayFSE (env : Env) (upperDir workDir lowerDir mountPath : String) :
    Option String × List FsAction :=
  let t0 : List FsAction :=
    [.mkdirAll upperDir DirectoryPermissions, .mkdirAll workDir DirectoryPermissions]
  match env.mkdirAll upperDir with
  | some e => (some (wrapE "failed to create directories" e), t0)
  | none =>
    match env.mkdirAll workDir with
    | some e => (some (wrapE "failed to create directories" e), t0)
    | none =>
      let args := overlayArgs upperDir workDir lowerDir mountPath
      match env.mountCmd args with
      | some stderrOut =>
          (some (wrapE "failed to execute mount command" (goTrim stderrOut)), t0 ++ [.execMount args])
      | none => (none, t0 ++ [.execMount args])

/-- `DatasetVolumes.unmountOverlayFS`: run `umount <mountPath>`, then
remove the upper and work directories (both attempts run before errors
are checked). -/
def unmountOverlayFSE (env : Env) (upperDir workDir mountPath : String) :
    Option String × List FsAction :=
  match env.umountCmd mountPath with
  | some stderrOut =>
      (some (wrapE "failed to unmount overlayfs" (goTrim stderrOut)), [.execUmount mountPath])
  | none =>
    let t0 : List FsAction := [.execUmount mountPath, .removeAll upperDir, .removeAll workDir]
    match env.removeAll upperDir with
    | some e => (some (wrapE "failed to delete directories" e), t0)
    | none =>
      match env.removeAll workDir with
      | some e => (some (wrapE "failed to delete directories" e), t0)
      | none => (none, t0)

/-- `DatasetVolumes.handleOutput`: nothing to do without an output
reference; otherwise set up the S3 transfer and upload the path. -/
def handleOutputE (env : Env) (path : String) (output : Option Ref) :
    Option String × List FsAction :=
  match output with
  | none => (none, [])
  | some ref =>
    match env.newS3 ref.Bucket with
    | some e => (some (wrapE "failed to set up S3 transfer" e), [.newS3 ref.Bucket])
    | none =>
      match env.upload ref path with
      | some e =>
          (some (wrapE "failed to upload data to S3" e), [.newS3 ref.Bucket, .upload ref path])
      | none => (none, [.newS3 ref.Bucket, .upload ref path])

/-- `DatasetVolumes.Mount`: the five-step pipeline.  Each step's
rollback is registered as a deferred action right after the step runs
and fires (in last-in-first-out order) whenever the function returns a
non-nil error; rollback results are discarded.  The returned trace lists
every attempted action in execution order. -/
def MountE (env : Env) (m : String) (opts : MountOptions) : Option String × List FsAction :=
  match writeDatasetOptsE env (getPath m RelPathOptions) opts with
  | (.error e, t1) =>
      (some (wrapE "failed to write volume database" e),
       t1 ++ (deleteDatasetOptsE env (getPath m RelPathOptions)).2)
  | (.ok dsopts, t1) =>
    match provisionInputE env (getPath m RelPathInput) dsopts.Input with
    | (some e, t2) =>
        (some (wrapE "failed to provision input" e),
         t1 ++ t2 ++ (destroyInputE env (getPath m RelPathInput)).2 ++
           (deleteDatasetOptsE env (getPath m RelPathOptions)).2)
    | (none, t2) =>
      match createFSInFileE env (getPath m RelPathFSInFile) FileSystemExt4 WriteSpace with
      | (some e, t3) =>
          (some (wrapE "failed to create file system in a file" e),
           t1 ++ t2 ++ t3 ++ (destroyFSInFileE env (getPath m RelPathFSInFile)).2 ++
             (destroyInputE env (getPath m RelPathInput)).2 ++
             (deleteDatasetOptsE env (getPath m RelPathOptions)).2)
      | (none, t3) =>
        match mountFSInFileE env (getPath m RelPathFSInFile) (getPath m RelPathFSInFileMount) with
        | (some e, t4) =>
            (some (wrapE "failed to mount file system in a file" e),
             t1 ++ t2 ++ t3 ++ t4 ++
               (unmountFSInFileE env (getPath m RelPathFSInFileMount)).2 ++
               (destroyFSInFileE env (getPath m RelPathFSInFile)).2 ++
               (destroyInputE env (getPath m RelPathInput)).2 ++
               (deleteDatasetOptsE env (getPath m RelPathOptions)).2)
        | (none, t4) =>
          match mountOverlayFSE env (goJoin [getPath m RelPathFSInFileMount, "upper"])
              (goJoin [getPath m RelPathFSInFileMount, "work"]) (getPath m RelPathInput) m with
          | (some e, t5) =>
              (some (wrapE "failed to mount overlayfs" e),
               t1 ++ t2 ++ t3 ++ t4 ++ t5 ++
                 (unmountOverlayFSE env (goJoin [getPath m RelPathFSInFileMount, "upper"])
                   (goJoin [getPath m RelPathFSInFileMount, "work"]) m).2 ++
                 (unmountFSInFileE env (getPath m RelPathFSInFileMount)).2 ++
                 (destroyFSInFileE env (getPath m RelPathFSInFile)).2 ++
                 (destroyInputE env (getPath m RelPathInput)).2 ++
                 (deleteDatasetOptsE env (getPath m RelPathOptions)).2)
          | (none, t5) => (none, t1 ++ t2 ++ t3 ++ t4 ++ t5)

/-- A Go error value returned by `Unmount`: either a single wrapped
error (steps 1 and 2) or a `multierror` aggregate (cleanup). -/
inductive GoErr where
  | msg (s : String)
  | multi (errs : List String)
deriving DecidableEq, Repr

/-- The wrapped errors of the five cleanup steps of `Unmount`, in
pipeline order (the `multierror` contents). -/
def cleanupErrs (env : Env) (m : String) : List String :=
  [((unmountOverlayFSE env (goJoin [getPath m RelPathFSInFileMount, "upper"])
      (goJoin [getPath m RelPathFSInFileMount, "work"]) m).1).map
        (wrapE "failed to unmount overlayfs"),
   ((unmountFSInFileE env (getPath m RelPathFSInFileMount)).1).map
        (wrapE "failed to unmount file system in a file"),
   ((destroyFSInFileE env (getPath m RelPathFSInFile)).1).map
        (wrapE "failed to delete file system in a file"),
   ((destroyInputE env (getPath m RelPathInput)).1).map
        (wrapE "failed to delete input data"),
   ((deleteDatasetOptsE env (getPath m RelPathOptions)).1).map
        (wrapE "failed to delete dataset")].filterMap id

/-- `DatasetVolumes.Unmount`: read the sidecar options and upload any
output, aborting on failure; then attempt all five cleanup steps,
collecting their wrapped errors with `multierror`. -/
def UnmountE (env : Env) (m : String) : Option GoErr × List FsAction :=
  match readDatasetOptsE env (getPath m RelPathOptions) with
  | (.error e, t1) => (some (.msg (wrapE "failed to read volume database" e)), t1)
  | (.ok dsopts, t1) =>
    match handleOutputE env m dsopts.Output with
    | (some e, t2) => (some (.msg (wrapE "failed to upload output" e)), t1 ++ t2)
    | (none, t2) =>
      ((match cleanupErrs env m with
        | [] => none
        | es => some (.multi es)),
       t1 ++ t2 ++
         (unmountOverlayFSE env (goJoin [getPath m RelPathFSInFileMount, "upper"])
           (goJoin [getPath m RelPathFSInFileMount, "work"]) m).2 ++
         (unmountFSInFileE env (getPath m RelPathFSInFileMount)).2 ++
         (destroyFSInFileE env (getPath m RelPathFSInFile)).2 ++
         (destroyInputE env (getPath m RelPathInput)).2 ++
         (deleteDatasetOptsE env (getPath m RelPathOptions)).2)

/-- The derived paths `Mount` computes from the target path. -/
def mountDerivedPaths (m : String) : List String :=
  [getPath m RelPathOptions, getPath m RelPathInput,
   getPath m RelPathFSInFile, getPath m RelPathFSInFileMount]

/-- The derived paths `Unmount` computes from the target path. -/
def unmountDerivedPaths (m : String) : List String :=
  [getPath m RelPathOptions, getPath m RelPathInput,
   getPath m RelPathFSInFile, getPath m RelPathFSInFileMount]

/-! ### Concrete environments for witnesses and counterexamples -/

/-- An environment in which every operation succeeds and every sidecar
decode yields empty options. -/
def envOK : Env where
  createFile := fun _ => none
  truncate := fun _ _ => none
  encodeTo := fun _ => none
  openFile := fun _ => none
  decodeFile := fun _ => none
  storedOpts := fun _ => ⟨none, none⟩
  remove := fun _ => none
  removeAll := fun _ => none
  mkdir := fun _ => none
  mkdirAll := fun _ => none
  mkfs := fun _ _ => none
  mountCmd := fun _ => none
  umountCmd := fun _ => none
  newS3 := fun _ => none
  download := fun _ _ => none
  upload := fun _ _ => none

/-- Options with no input and no output reference. -/
def emptyOpts : MountOptions := ⟨"", "", "", ""⟩

/-- All operations succeed except the loopback `mount` command (the
two-argument, non-overlay form), which fails with stderr `"boom"`. -/
def envMountFail : Env :=
  { envOK with mountCmd := fun args => if args.length = 2 then some "boom" else none }

/-- All operations succeed except `umount` of the target path
`"/mnt/x"`, which fails with stderr `"target is busy"`. -/
def envOverlayUmountFail : Env :=
  { envOK with umountCmd := fun p => if p = "/mnt/x" then some "target is busy" else none }

/-- An environment in which the upload to the configured output
reference fails. -/
def envUploadFail : Env :=
  { envOK with
    storedOpts := fun _ => ⟨none, some ⟨"k", "b"⟩⟩
    upload := fun _ _ => some "network error" }

/-- An environment in which opening the sidecar file fails (absent
file). -/
def envReadFail : Env :=
  { envOK with openFile := fun _ => some "no such file or directory" }

/-- An environment in which `umount` always fails. -/
def envUmountFail : Env := { envOK with umountCmd := fun _ => some "target is busy" }

/-- An environment in which recursive removal always fails. -/
def envRemoveFail : Env := { envOK with removeAll := fun _ => some "permission denied" }

/-- An environment whose sidecar decode yields a configured output
reference and in which every operation succeeds. -/
def envOutRef : Env := { envOK with storedOpts := fun _ => ⟨none, some ⟨"k", "b"⟩⟩ }

/-- An environment in which `mkfs` fails with a diagnostic on stderr. -/
def envMkfsFail : Env :=
  { envOK with mkfs := fun _ _ => some "mke2fs: no such device\n" }

/-! ### Side-effect classification of actions -/

/-- Actions that create or write a file, extend a file, create a
directory, format or mount something, or invoke the transfer
collaborators for data movement. -/
def createsWritesOrTransfers : FsAction → Bool
  | .createFile _ => true
  | .truncate _ _ => true
  | .writeFile _ => true
  | .mkdir _ _ => true
  | .mkdirAll _ _ => true
  | .execMkfs _ _ => true
  | .execMount _ => true
  | .download _ _ => true
  | .upload _ _ => true
  | _ => false

/-- Actions that change on-disk state or issue mount/unmount commands
(reads, decodes, transfer-client setup and uploads do not). -/
def mutating : FsAction → Bool
  | .openFile _ => false
  | .decodeFile _ => false
  | .newS3 _ => false
  | .upload _ _ => false
  | _ => true

/-- Invariant of every action the driver attempts: directory creations
use `DirectoryPermissions` and file extensions use `WriteSpace`. -/
def actionOKb : FsAction → Bool
  | .mkdir _ md => decide (md = DirectoryPermissions)
  | .mkdirAll _ md => decide (md = DirectoryPermissions)
  | .truncate _ sz => decide (sz = WriteSpace)
  | _ => true

/-! ## Sidecar serialization model (`encoding/json` on `datasetOpts`)

The sidecar file's contents are modelled as JSON values; the encoder
mirrors `json.Encoder.Encode` on `datasetOpts` (a `nil` pointer encodes
as `null`) and the decoder mirrors `json.Decoder.Decode` into a fresh
`datasetOpts` (absent or `null` fields leave the zero value, type
mismatches fail). -/

/-- A JSON value (the fragment needed by the sidecar file). -/
inductive JVal where
  | null
  | jstr (s : String)
  | jobj (fields : List (String × JVal))

/-- Encoding of a `transfer.Ref`. -/
def encodeRef (r : Ref) : JVal :=
  .jobj [("Key", .jstr r.Key), ("Bucket", .jstr r.Bucket)]

/-- Encoding of a `*transfer.Ref` (a `nil` pointer encodes as `null`). -/
def encodeOptRef : Option Ref → JVal
  | none => .null
  | some r => encodeRef r

/-- Encoding of `datasetOpts`. -/
def encodeDatasetOpts (o : datasetOpts) : JVal :=
  .jobj [("Input", encodeOptRef o.Input), ("Output", encodeOptRef o.Output)]

/-- Decode a JSON object field into a Go `string` (absent or `null`
leaves the zero value; a non-string value is a type error). -/
def decodeStrField (fs : List (String × JVal)) (k : String) : Except String String :=
  match fs.lookup k with
  | none => .ok ""
  | some .null => .ok ""
  | some (.jstr s) => .ok s
  | some (.jobj _) => .error "cannot unmarshal object into field of type string"

/-- Decode a JSON value into a `*transfer.Ref`. -/
def decodeOptRef (v : JVal) : Except String (Option Ref) :=
  match v with
  | .null => .ok none
  | .jstr _ => .error "cannot unmarshal string into field of type transfer.Ref"
  | .jobj fs => do
      let k ← decodeStrField fs "Key"
      let b ← decodeStrField fs "Bucket"
      .ok (some ⟨k, b⟩)

/-- Decode a JSON object field into a `*transfer.Ref`. -/
def decodeRefField (fs : List (String × JVal)) (k : String) : Except String (Option Ref) :=
  match fs.lookup k with
  | none => .ok none
  | some v => decodeOptRef v

/-- Decode a JSON value into `datasetOpts`. -/
def decodeDatasetOpts (v : JVal) : Except String datasetOpts :=
  match v with
  | .jobj fs => do
      let i ← decodeRefField fs "Input"
      let o ← decodeRefField fs "Output"
      .ok ⟨i, o⟩
  | .null => .ok ⟨none, none⟩
  | .jstr _ => .error "cannot unmarshal string into value of type datasetOpts"

/-- The sidecar store: JSON contents indexed by path. -/
def Store := String → Option JVal

/-- `DatasetVolumes.writeDatasetOpts`, state-passing form: validate the
options, then overwrite the sidecar file at `path` with the encoded
dataset options, returning them together with the updated store. -/
def writeDatasetOptsS (st : Store) (path : String) (opts : MountOptions) :
    Except String (datasetOpts × Store) :=
  if opts.InputS3Key ≠ "" ∧ opts.InputS3Bucket = "" then
    .error "input key configured without a bucket"
  else if opts.OutputS3Key ≠ "" ∧ opts.OutputS3Bucket = "" then
    .error "output key configured without a bucket"
  else
    let dsopts : datasetOpts :=
      { Input := if opts.InputS3Key ≠ "" then some ⟨opts.InputS3Key, opts.InputS3Bucket⟩ else none
        Output := if opts.OutputS3Key ≠ "" then some ⟨opts.OutputS3Key, opts.OutputS3Bucket⟩ else none }
    .ok (dsopts, fun p => if p = path then some (encodeDatasetOpts dsopts) else st p)

/-- `DatasetVolumes.readDatasetOpts`, state-passing form: open the
sidecar file at `path` (failing when absent) and decode it. -/
def readDatasetOptsS (st : Store) (path : String) : Except String datasetOpts :=
  match st path with
  | none =>
      .error (wrapE "failed to open metadata file" ("open " ++ path ++ ": no such file or directory"))
  | some v =>
    match decodeDatasetOpts v with
    | .error e => .error (wrapE "failed to decode metadata" e)
    | .ok o => .ok o

/-! ## Lemmas about the path model -/

theorem mk_string_append (a b : List Char) :
    String.mk a ++ String.mk b = String.mk (a ++ b) := rfl

theorem mk_cons_ne_empty (c : Char) (l : List Char) : String.mk (c :: l) ≠ "" := by
  intro h
  exact absurd (congrArg String.data h) (by simp)

theorem takeWhile_append_stop (p : Char → Bool) (u : List Char) (hu : ∀ a ∈ u, p a = true)
    (v0 : Char) (hv : p v0 = false) (v : List Char) :
    (u ++ v0 :: v).takeWhile p = u := by
  induction u with
  | nil => simp [List.takeWhile, hv]
  | cons a t ih =>
    have ha : p a = true := hu a (by simp)
    simp only [List.cons_append, List.takeWhile, ha, List.append_eq]
    rw [ih (fun x hx => hu x (by simp [hx]))]

theorem dropWhile_append_stop (p : Char → Bool) (u : List Char) (hu : ∀ a ∈ u, p a = true)
    (v0 : Char) (hv : p v0 = false) (v : List Char) :
    (u ++ v0 :: v).dropWhile p = v0 :: v := by
  induction u with
  | nil => simp [List.dropWhile, hv]
  | cons a t ih =>
    have ha : p a = true := hu a (by simp)
    simp only [List.cons_append, List.dropWhile, ha, List.append_eq]
    exact ih (fun x hx => hu x (by simp [hx]))

theorem splitSlash_noslash (x : List Char) (hx : '/' ∉ x) (r acc : List Char) :
    splitSlash (x ++ r) acc = splitSlash r (x.reverse ++ acc) := by
  induction x generalizing acc with
  | nil => simp
  | cons c t ih =>
    have hc : c ≠ '/' := fun h => hx (h ▸ List.mem_cons_self c t)
    have ht : '/' ∉ t := fun h => hx (List.mem_cons_of_mem c h)
    simp only [List.cons_append, splitSlash, if_neg (fun h => hc h), List.append_eq]
    rw [ih ht]
    simp

theorem sepJoinL_cons (x : List Char) (xs : List (List Char)) (h : xs ≠ []) :
    sepJoinL (x :: xs) = x ++ '/' :: sepJoinL xs := by
  cases xs with
  | nil => exact absurd rfl h
  | cons y ys => rfl

theorem sepJoinL_append (L M : List (List Char)) (hL : L ≠ []) (hM : M ≠ []) :
    sepJoinL (L ++ M) = sepJoinL L ++ '/' :: sepJoinL M := by
  induction L with
  | nil => exact absurd rfl hL
  | cons x xs ih =>
    cases xs with
    | nil =>
      cases M with
      | nil => exact absurd rfl hM
      | cons y ys => simp [sepJoinL]
    | cons z zs =>
      have hzs : (z :: zs : List (List Char)) ≠ [] := by simp
      rw [List.cons_append, sepJoinL_cons x (z :: zs ++ M) (by simp),
        sepJoinL_cons x (z :: zs) hzs, ih hzs]
      simp

theorem splitSlash_sepJoin (L : List (List Char)) (hL : ∀ c ∈ L, '/' ∉ c) (h : L ≠ []) :
    splitSlash (sepJoinL L) [] = L := by
  induction L with
  | nil => exact absurd rfl h
  | cons x xs ih =>
    cases xs with
    | nil =>
      have hx : '/' ∉ x := hL x (by simp)
      have := splitSlash_noslash x hx [] []
      simpa [splitSlash] using this
    | cons y ys =>
      have hx : '/' ∉ x := hL x (by simp)
      rw [sepJoinL_cons x (y :: ys) (by simp), splitSlash_noslash x hx _ []]
      simp only [splitSlash, if_pos rfl]
      rw [ih (fun c hc => hL c (List.mem_cons_of_mem x hc)) (by simp)]
      simp

theorem elimStack_append (r : Bool) (l₁ l₂ st : List (List Char)) :
    elimStack r st (l₁ ++ l₂) = elimStack r (elimStack r st l₁) l₂ := by
  induction l₁ generalizing st with
  | nil => simp [elimStack]
  | cons c cs ih =>
    by_cases hc : c = ['.', '.']
    · cases st with
      | nil =>
        cases r <;> simp [elimStack, hc, ih]
      | cons top rest =>
        by_cases ht : top = ['.', '.'] <;> simp [elimStack, hc, ht, ih]
    · simp [elimStack, hc, ih]

theorem elimStack_no_dotdot (r : Bool) (cs : List (List Char))
    (h : ∀ c ∈ cs, c ≠ ['.', '.']) (st : List (List Char)) :
    elimStack r st cs = cs.reverse ++ st := by
  induction cs generalizing st with
  | nil => simp [elimStack]
  | cons c t ih =>
    have hc : c ≠ ['.', '.'] := h c (by simp)
    simp only [elimStack, if_neg hc]
    rw [ih (fun x hx => h x (List.mem_cons_of_mem c hx))]
    simp

theorem elimStack_pop (r : Bool) (st : List (List Char)) (b : List Char)
    (hb : b ≠ ['.', '.']) :
    elimStack r st [b, ['.', '.']] = st := by
  simp only [elimStack, if_neg hb, if_pos rfl]
  exact if_pos trivial

theorem renderClean_rooted_ne (comps : List (List Char)) (h : comps ≠ []) :
    renderClean true comps = '/' :: sepJoinL comps := by
  cases comps with
  | nil => exact absurd rfl h
  | cons a l => rfl

theorem goodComps_rooted (L : List (List Char)) (hL : ∀ c ∈ L, '/' ∉ c) (h : L ≠ []) :
    goodComps ('/' :: sepJoinL L) = L.filter goodComp := by
  unfold goodComps
  have : splitSlash ('/' :: sepJoinL L) [] = [] :: splitSlash (sepJoinL L) [] := by
    simp [splitSlash]
  rw [this, splitSlash_sepJoin L hL h]
  simp [goodComp]

theorem goCleanL_rooted_normal (L : List (List Char)) (h : L ≠ [])
    (hgood : ∀ c ∈ L, goodComp c = true) (hdd : ∀ c ∈ L, c ≠ ['.', '.'])
    (hsl : ∀ c ∈ L, '/' ∉ c) :
    goCleanL ('/' :: sepJoinL L) = '/' :: sepJoinL L := by
  unfold goCleanL
  have hr : isRooted ('/' :: sepJoinL L) = true := rfl
  rw [hr, goodComps_rooted L hsl h, List.filter_eq_self.mpr hgood,
    elimStack_no_dotdot true L hdd [], List.append_nil, List.reverse_reverse,
    renderClean_rooted_ne L h]

theorem abs_chars_concat (cs : List (List Char)) (b : List Char) :
    '/' :: sepJoinL (cs ++ [b]) =
      (if cs = [] then [] else '/' :: sepJoinL cs) ++ '/' :: b := by
  cases cs with
  | nil => simp [sepJoinL]
  | cons x xs =>
    rw [if_neg (by simp), sepJoinL_append (x :: xs) [b] (by simp) (by simp)]
    simp [sepJoinL]

theorem goBaseL_concat (u b : List Char) (hb : b ≠ []) (hsl : '/' ∉ b) :
    goBaseL (u ++ '/' :: b) = b := by
  have hne : u ++ '/' :: b ≠ [] := by simp
  cases hbr : b.reverse with
  | nil => exact absurd (by simpa using congrArg List.reverse hbr) hb
  | cons c t' =>
    have hc : c ∈ b := by
      have : c ∈ b.reverse := by rw [hbr]; exact List.mem_cons_self c t'
      exact List.mem_reverse.mp this
    have hcne : (c == '/') = false := by
      rw [beq_eq_false_iff_ne]
      intro h
      exact hsl (h ▸ hc)
    have hrev : (u ++ '/' :: b).reverse = c :: (t' ++ '/' :: u.reverse) := by
      rw [List.reverse_append, List.reverse_cons, hbr]
      simp
    have hdrop : (u ++ '/' :: b).reverse.dropWhile (fun c => c == '/') =
        c :: (t' ++ '/' :: u.reverse) := by
      rw [hrev]
      simp [List.dropWhile, hcne]
    have htake : (c :: (t' ++ '/' :: u.reverse)).takeWhile (fun c => c != '/') = c :: t' := by
      have hall : ∀ a ∈ b.reverse, (a != '/') = true := by
        intro a ha
        have : a ∈ b := List.mem_reverse.mp ha
        simp only [bne_iff_ne, ne_eq]
        intro h
        exact hsl (h ▸ this)
      have := takeWhile_append_stop (fun c => c != '/') (c :: t')
        (fun a ha => hall a (hbr ▸ ha)) '/' (by simp) u.reverse
      simpa using this
    unfold goBaseL
    rw [if_neg hne, hdrop, if_neg (by simp), htake, ← hbr, List.reverse_reverse]

theorem goDirL_concat (u b : List Char) (hsl : '/' ∉ b) :
    goDirL (u ++ '/' :: b) = goCleanL (u ++ ['/']) := by
  have hall : ∀ a ∈ b.reverse, ((a != '/') : Bool) = true := by
    intro a ha
    have : a ∈ b := List.mem_reverse.mp ha
    simp only [bne_iff_ne, ne_eq]
    intro h
    exact hsl (h ▸ this)
  have hrev : (u ++ '/' :: b).reverse = b.reverse ++ '/' :: u.reverse := by
    simp
  have hdrop : (u ++ '/' :: b).reverse.dropWhile (fun c => c != '/') = '/' :: u.reverse := by
    rw [hrev]
    exact dropWhile_append_stop _ b.reverse hall '/' (by simp) u.reverse
  unfold goDirL
  rw [hdrop]
  simp

theorem normalComp_good (c : List Char) (h : normalCompL c) : goodComp c = true := by
  simp [goodComp, h.1, h.2.1]

theorem normal_suffixed (b s : List Char) (hb : normalCompL b) (hs : normalCompL s) :
    normalCompL (b ++ '.' :: s) := by
  obtain ⟨hb1, -, -, hb4⟩ := hb
  obtain ⟨hs1, -, -, hs4⟩ := hs
  have hlb : 1 ≤ b.length := List.length_pos.mpr hb1
  have hls : 1 ≤ s.length := List.length_pos.mpr hs1
  refine ⟨by simp, ?_, ?_, ?_⟩
  · intro h
    have := congrArg List.length h
    simp [List.length_append] at this
    omega
  · intro h
    have := congrArg List.length h
    simp [List.length_append] at this
    omega
  · intro h
    rcases List.mem_append.mp h with h1 | h2
    · exact hb4 h1
    · rcases List.mem_cons.mp h2 with h3 | h4
      · exact absurd h3 (by decide)
      · exact hs4 h4

theorem goJoin_cons_of_ne (a : String) (rest : List String) (h : a ≠ "") :
    goJoin (a :: rest) = goClean (String.mk (sepJoinL ((a :: rest).map String.toList))) := by
  have h0 : (a == "") = false := by
    rw [beq_eq_false_iff_ne]
    exact h
  unfold goJoin
  simp only [List.dropWhile, h0]

theorem goBase_abs (cs : List (List Char)) (b : List Char) (hb : normalCompL b) :
    goBase (absPath (cs ++ [b])) = String.mk b := by
  show String.mk (goBaseL ('/' :: sepJoinL (cs ++ [b]))) = String.mk b
  rw [abs_chars_concat, goBaseL_concat _ b hb.1 hb.2.2.2]

theorem name_abs (cs : List (List Char)) (b s : List Char) (hb : normalCompL b) :
    goBase (absPath (cs ++ [b])) ++ "." ++ String.mk s = String.mk (b ++ '.' :: s) := by
  rw [goBase_abs cs b hb]
  rw [show ("." : String) = String.mk ['.'] from rfl, mk_string_append, mk_string_append]
  simp

theorem goDir_abs (cs : List (List Char)) (b : List Char)
    (hcs : ∀ c ∈ cs, normalCompL c) (hb : normalCompL b) :
    goDir (absPath (cs ++ [b])) = if cs = [] then "/" else String.mk ('/' :: sepJoinL cs) := by
  show String.mk (goDirL ('/' :: sepJoinL (cs ++ [b]))) = _
  rw [abs_chars_concat, goDirL_concat _ b hb.2.2.2]
  cases cs with
  | nil => rfl
  | cons z zs =>
    rw [if_neg (by simp), if_neg (by simp)]
    have h1 : ('/' :: sepJoinL (z :: zs)) ++ ['/'] = '/' :: sepJoinL ((z :: zs) ++ [[]]) := by
      rw [sepJoinL_append (z :: zs) [[]] (by simp) (by simp)]
      simp [sepJoinL]
    rw [h1]
    have hsl : ∀ c ∈ (z :: zs) ++ [[]], '/' ∉ c := by
      intro c hc
      rcases List.mem_append.mp hc with h2 | h3
      · exact (hcs c h2).2.2.2
      · simp at h3
        simp [h3]
    unfold goCleanL
    rw [show isRooted ('/' :: sepJoinL ((z :: zs) ++ [[]])) = true from rfl]
    rw [goodComps_rooted _ hsl (by simp)]
    rw [List.filter_append]
    rw [List.filter_eq_self.mpr (fun c hc => normalComp_good c (hcs c hc))]
    rw [show List.filter goodComp [[]] = [] from rfl]
    rw [List.append_nil]
    rw [elimStack_no_dotdot true (z :: zs) (fun c hc => (hcs c hc).2.2.1) []]
    rw [List.append_nil, List.reverse_reverse, renderClean_rooted_ne _ (by simp)]

theorem goCleanL_join_elim (cs : List (List Char)) (b x : List Char)
    (hcs : ∀ c ∈ cs, normalCompL c) (hb : normalCompL b) (hx : normalCompL x) :
    goCleanL (('/' :: sepJoinL (cs ++ [b])) ++ '/' :: (['.', '.'] ++ '/' :: x)) =
      '/' :: sepJoinL (cs ++ [x]) := by
  have hchars : ('/' :: sepJoinL (cs ++ [b])) ++ '/' :: (['.', '.'] ++ '/' :: x) =
      '/' :: sepJoinL ((cs ++ [b, ['.', '.']]) ++ [x]) := by
    rw [show (cs ++ [b, ['.', '.']]) ++ [x] = (cs ++ [b]) ++ [['.', '.'], x] by simp]
    rw [sepJoinL_append (cs ++ [b]) [['.', '.'], x] (by simp) (by simp)]
    simp [sepJoinL]
  rw [hchars]
  have hsl : ∀ c ∈ (cs ++ [b, ['.', '.']]) ++ [x], '/' ∉ c := by
    intro c hc
    simp only [List.mem_append, List.mem_cons, List.not_mem_nil, or_false] at hc
    rcases hc with (h1 | h2 | h3) | h5
    · exact (hcs c h1).2.2.2
    · exact h2 ▸ hb.2.2.2
    · subst h3; decide
    · exact h5 ▸ hx.2.2.2
  have hgood : ∀ c ∈ (cs ++ [b, ['.', '.']]) ++ [x], goodComp c = true := by
    intro c hc
    simp only [List.mem_append, List.mem_cons, List.not_mem_nil, or_false] at hc
    rcases hc with (h1 | h2 | h3) | h5
    · exact normalComp_good c (hcs c h1)
    · exact h2 ▸ normalComp_good b hb
    · subst h3; decide
    · exact h5 ▸ normalComp_good x hx
  unfold goCleanL
  rw [show isRooted ('/' :: sepJoinL ((cs ++ [b, ['.', '.']]) ++ [x])) = true from rfl]
  rw [goodComps_rooted _ hsl (by simp)]
  rw [List.filter_eq_self.mpr hgood]
  rw [elimStack_append true (cs ++ [b, ['.', '.']]) [x] []]
  rw [show cs ++ [b, ['.', '.']] = cs ++ ([b, ['.', '.']] : List (List Char)) from rfl]
  rw [elimStack_append true cs [b, ['.', '.']] []]
  rw [elimStack_no_dotdot true cs (fun c hc => (hcs c hc).2.2.1) []]
  rw [List.append_nil, elimStack_pop true cs.reverse b hb.2.2.1]
  rw [elimStack_no_dotdot true [x] (by intro c hc; simp at hc; exact hc ▸ hx.2.2.1) cs.reverse]
  rw [show ([x] : List (List Char)).reverse = [x] from rfl]
  rw [show ([x] : List (List Char)) ++ cs.reverse = x :: cs.reverse from rfl]
  rw [show (x :: cs.reverse).reverse = cs.reverse.reverse ++ [x] by simp]
  rw [List.reverse_reverse, renderClean_rooted_ne _ (by simp)]

/-- Structural computation of `getPath` on a cleaned absolute mount path
`/c₁/…/cₙ/b`: the derived path is `/c₁/…/cₙ/b.<name>`. -/
theorem getPath_structured (cs : List (List Char)) (b s : List Char)
    (hcs : ∀ c ∈ cs, normalCompL c) (hb : normalCompL b) (hs : normalCompL s) :
    getPath (absPath (cs ++ [b])) (String.mk s) = absPath (cs ++ [b ++ '.' :: s]) := by
  have hx : normalCompL (b ++ '.' :: s) := normal_suffixed b s hb hs
  unfold getPath
  rw [name_abs cs b s hb]
  rw [goJoin_cons_of_ne _ _ (show absPath (cs ++ [b]) ≠ "" from mk_cons_ne_empty _ _)]
  show String.mk (goCleanL (('/' :: sepJoinL (cs ++ [b])) ++ '/' :: (['.', '.'] ++ '/' :: (b ++ '.' :: s)))) = _
  rw [goCleanL_join_elim cs b (b ++ '.' :: s) hcs hb hx]
  rfl

/-- Structural computation of the spec's derived-path description on the
same family of mount paths: it coincides with `getPath`'s result. -/
theorem specDerivedPath_structured (cs : List (List Char)) (b s : List Char)
    (hcs : ∀ c ∈ cs, normalCompL c) (hb : normalCompL b) (hs : normalCompL s) :
    specDerivedPath (absPath (cs ++ [b])) (String.mk s) = absPath (cs ++ [b ++ '.' :: s]) := by
  have hx : normalCompL (b ++ '.' :: s) := normal_suffixed b s hb hs
  unfold specDerivedPath
  rw [name_abs cs b s hb, goDir_abs cs b hcs hb]
  cases cs with
  | nil =>
    rw [if_pos rfl]
    rw [goJoin_cons_of_ne _ _ (by decide)]
    show String.mk (goCleanL ('/' :: sepJoinL ([[], b ++ '.' :: s] : List (List Char)))) = _
    have hsl : ∀ c ∈ ([[], b ++ '.' :: s] : List (List Char)), '/' ∉ c := by
      intro c hc
      simp only [List.mem_cons, List.mem_singleton] at hc
      rcases hc with h1 | h2
      · simp [h1]
      · simp at h2
        exact h2 ▸ hx.2.2.2
    unfold goCleanL
    rw [show isRooted ('/' :: sepJoinL ([[], b ++ '.' :: s] : List (List Char))) = true from rfl]
    rw [goodComps_rooted _ hsl (by simp)]
    rw [show List.filter goodComp ([[], b ++ '.' :: s] : List (List Char)) =
        List.filter goodComp [b ++ '.' :: s] from rfl]
    rw [List.filter_eq_self.mpr (by intro c hc; simp at hc; exact hc ▸ normalComp_good _ hx)]
    rw [elimStack_no_dotdot true [b ++ '.' :: s] (by intro c hc; simp at hc; exact hc ▸ hx.2.2.1) []]
    simp only [List.reverse_cons, List.reverse_nil, List.nil_append, List.append_nil]
    rw [renderClean_rooted_ne _ (by simp)]
    rfl
  | cons z zs =>
    rw [if_neg (by simp)]
    rw [goJoin_cons_of_ne _ _ (mk_cons_ne_empty _ _)]
    show String.mk (goCleanL (('/' :: sepJoinL (z :: zs)) ++ '/' :: (b ++ '.' :: s))) = _
    have h1 : ('/' :: sepJoinL (z :: zs)) ++ '/' :: (b ++ '.' :: s) =
        '/' :: sepJoinL ((z :: zs) ++ [b ++ '.' :: s]) := by
      rw [sepJoinL_append (z :: zs) [b ++ '.' :: s] (by simp) (by simp)]
      simp [sepJoinL]
    rw [h1]
    rw [goCleanL_rooted_normal ((z :: zs) ++ [b ++ '.' :: s]) (by simp)
      (by
        intro c hc
        rcases List.mem_append.mp hc with h2 | h3
        · exact normalComp_good c (hcs c h2)
        · simp at h3
          exact h3 ▸ normalComp_good _ hx)
      (by
        intro c hc
        rcases List.mem_append.mp hc with h2 | h3
        · exact (hcs c h2).2.2.1
        · simp at h3
          exact h3 ▸ hx.2.2.1)
      (by
        intro c hc
        rcases List.mem_append.mp hc with h2 | h3
        · exact (hcs c h2).2.2.2
        · simp at h3
          exact h3 ▸ hx.2.2.2)]
    rfl

/-! ## Claim theorems -/

/-- C3: whenever an input key is configured without a bucket (or the
output equivalent), `Mount` fails with the validation error from
`writeDatasetOpts`; the only attempted action is the deferred removal of
the (never created) sidecar file, so no file is created or written, no
directory is created, and no Download or Upload collaborator call is
made. -/
theorem mount_validation_rejects_before_side_effects (env : Env) (m : String)
    (opts : MountOptions)
    (h : (opts.InputS3Key ≠ "" ∧ opts.InputS3Bucket = "") ∨
         (opts.OutputS3Key ≠ "" ∧ opts.OutputS3Bucket = "")) :
    ((MountE env m opts).1 =
        some (wrapE "failed to write volume database" "input key configured without a bucket") ∨
     (MountE env m opts).1 =
        some (wrapE "failed to write volume database" "output key configured without a bucket")) ∧
    (MountE env m opts).2 = [.removeFile (getPath m RelPathOptions)] ∧
    ∀ a ∈ (MountE env m opts).2, createsWritesOrTransfers a = false := by
  by_cases hin : opts.InputS3Key ≠ "" ∧ opts.InputS3Bucket = ""
  · have h1 : writeDatasetOptsE env (getPath m RelPathOptions) opts =
        (.error "input key configured without a bucket", []) := by
      unfold writeDatasetOptsE
      rw [if_pos hin]
    have hM : MountE env m opts =
        (some (wrapE "failed to write volume database" "input key configured without a bucket"),
         [.removeFile (getPath m RelPathOptions)]) := by
      unfold MountE
      rw [h1]
      rfl
    rw [hM]
    refine ⟨Or.inl rfl, rfl, ?_⟩
    intro a ha
    simp only [List.mem_singleton] at ha
    rw [ha]
    rfl
  · have hout : opts.OutputS3Key ≠ "" ∧ opts.OutputS3Bucket = "" := h.resolve_left hin
    have h1 : writeDatasetOptsE env (getPath m RelPathOptions) opts =
        (.error "output key configured without a bucket", []) := by
      unfold writeDatasetOptsE
      rw [if_neg hin, if_pos hout]
    have hM : MountE env m opts =
        (some (wrapE "failed to write volume database" "output key configured without a bucket"),
         [.removeFile (getPath m RelPathOptions)]) := by
      unfold MountE
      rw [h1]
      rfl
    rw [hM]
    refine ⟨Or.inr rfl, rfl, ?_⟩
    intro a ha
    simp only [List.mem_singleton] at ha
    rw [ha]
    rfl

/-- C3 witness: a concrete run with an input key and no bucket. -/
theorem mount_validation_rejects_witness :
    ((MountE envOK "/mnt/x" ⟨"k", "", "", ""⟩).1 =
        some (wrapE "failed to write volume database" "input key configured without a bucket") ∨
     (MountE envOK "/mnt/x" ⟨"k", "", "", ""⟩).1 =
        some (wrapE "failed to write volume database" "output key configured without a bucket")) ∧
    (MountE envOK "/mnt/x" ⟨"k", "", "", ""⟩).2 = [.removeFile (getPath "/mnt/x" RelPathOptions)] ∧
    ∀ a ∈ (MountE envOK "/mnt/x" ⟨"k", "", "", ""⟩).2, createsWritesOrTransfers a = false :=
  mount_validation_rejects_before_side_effects envOK "/mnt/x" ⟨"k", "", "", ""⟩
    (Or.inl (by decide))

/-- C1 counterexample: with every operation succeeding except the
loopback `mount` command (pipeline step 4), the recorded trace contains
`umount` and recursive removal of the `.mount` path — the rollback of
the failing step 4 itself — in addition to the rollbacks of steps 3, 2
and 1, refuting that exactly the rollbacks of steps 1..N-1 run. -/
theorem mount_rollback_counterexample :
    MountE envMountFail "/mnt/x" emptyOpts =
      (some "failed to mount file system in a file: failed to execute mount command: boom",
       [.createFile "/mnt/x.json", .writeFile "/mnt/x.json",
        .mkdirAll "/mnt/x.input" DirectoryPermissions,
        .createFile "/mnt/x.volume", .truncate "/mnt/x.volume" WriteSpace,
        .execMkfs "ext4" "/mnt/x.volume",
        .mkdir "/mnt/x.mount" DirectoryPermissions,
        .execMount ["/mnt/x.volume", "/mnt/x.mount"],
        .execUmount "/mnt/x.mount", .removeAll "/mnt/x.mount",
        .removeAll "/mnt/x.volume",
        .removeAll "/mnt/x.input",
        .removeFile "/mnt/x.json"]) := by decide

/-- C1 (amended): when step N of the `mount` pipeline fails, the
rollback actions of steps N, N-1, …, 1 (the failing step's own deferred
rollback included) run in that reverse order before `Mount` returns,
and the error returned is the wrapped error originating at step N —
never an error produced by a rollback action, whose results are
discarded. -/
theorem mount_rollback_reverse_order :
    (∀ (env : Env) (m : String) (opts : MountOptions) (e : String) (t1 : List FsAction),
      writeDatasetOptsE env (getPath m RelPathOptions) opts = (.error e, t1) →
      MountE env m opts =
        (some (wrapE "failed to write volume database" e),
         t1 ++ (deleteDatasetOptsE env (getPath m RelPathOptions)).2)) ∧
    (∀ (env : Env) (m : String) (opts : MountOptions) (ds : datasetOpts)
        (t1 : List FsAction) (e : String) (t2 : List FsAction),
      writeDatasetOptsE env (getPath m RelPathOptions) opts = (.ok ds, t1) →
      provisionInputE env (getPath m RelPathInput) ds.Input = (some e, t2) →
      MountE env m opts =
        (some (wrapE "failed to provision input" e),
         t1 ++ t2 ++ (destroyInputE env (getPath m RelPathInput)).2 ++
           (deleteDatasetOptsE env (getPath m RelPathOptions)).2)) ∧
    (∀ (env : Env) (m : String) (opts : MountOptions) (ds : datasetOpts)
        (t1 t2 : List FsAction) (e : String) (t3 : List FsAction),
      writeDatasetOptsE env (getPath m RelPathOptions) opts = (.ok ds, t1) →
      provisionInputE env (getPath m RelPathInput) ds.Input = (none, t2) →
      createFSInFileE env (getPath m RelPathFSInFile) FileSystemExt4 WriteSpace = (some e, t3) →
      MountE env m opts =
        (some (wrapE "failed to create file system in a file" e),
         t1 ++ t2 ++ t3 ++ (destroyFSInFileE env (getPath m RelPathFSInFile)).2 ++
           (destroyInputE env (getPath m RelPathInput)).2 ++
           (deleteDatasetOptsE env (getPath m RelPathOptions)).2)) ∧
    (∀ (env : Env) (m : String) (opts : MountOptions) (ds : datasetOpts)
        (t1 t2 t3 : List FsAction) (e : String) (t4 : List FsAction),
      writeDatasetOptsE env (getPath m RelPathOptions) opts = (.ok ds, t1) →
      provisionInputE env (getPath m RelPathInput) ds.Input = (none, t2) →
      createFSInFileE env (getPath m RelPathFSInFile) FileSystemExt4 WriteSpace = (none, t3) →
      mountFSInFileE env (getPath m RelPathFSInFile) (getPath m RelPathFSInFileMount) = (some e, t4) →
      MountE env m opts =
        (some (wrapE "failed to mount file system in a file" e),
         t1 ++ t2 ++ t3 ++ t4 ++
           (unmountFSInFileE env (getPath m RelPathFSInFileMount)).2 ++
           (destroyFSInFileE env (getPath m RelPathFSInFile)).2 ++
           (destroyInputE env (getPath m RelPathInput)).2 ++
           (deleteDatasetOptsE env (getPath m RelPathOptions)).2)) ∧
    (∀ (env : Env) (m : String) (opts : MountOptions) (ds : datasetOpts)
        (t1 t2 t3 t4 : List FsAction) (e : String) (t5 : List FsAction),
      writeDatasetOptsE env (getPath m RelPathOptions) opts = (.ok ds, t1) →
      provisionInputE env (getPath m RelPathInput) ds.Input = (none, t2) →
      createFSInFileE env (getPath m RelPathFSInFile) FileSystemExt4 WriteSpace = (none, t3) →
      mountFSInFileE env (getPath m RelPathFSInFile) (getPath m RelPathFSInFileMount) = (none, t4) →
      mountOverlayFSE env (goJoin [getPath m RelPathFSInFileMount, "upper"])
        (goJoin [getPath m RelPathFSInFileMount, "work"]) (getPath m RelPathInput) m = (some e, t5) →
      MountE env m opts =
        (some (wrapE "failed to mount overlayfs" e),
         t1 ++ t2 ++ t3 ++ t4 ++ t5 ++
           (unmountOverlayFSE env (goJoin [getPath m RelPathFSInFileMount, "upper"])
             (goJoin [getPath m RelPathFSInFileMount, "work"]) m).2 ++
           (unmountFSInFileE env (getPath m RelPathFSInFileMount)).2 ++
           (destroyFSInFileE env (getPath m RelPathFSInFile)).2 ++
           (destroyInputE env (getPath m RelPathInput)).2 ++
           (deleteDatasetOptsE env (getPath m RelPathOptions)).2)) := by
  refine ⟨?_, ?_, ?_, ?_, ?_⟩
  · intro env m opts e t1 h1
    unfold MountE
    rw [h1]
  · intro env m opts ds t1 e t2 h1 h2
    unfold MountE
    simp only [h1, h2]
  · intro env m opts ds t1 t2 e t3 h1 h2 h3
    unfold MountE
    simp only [h1, h2, h3]
  · intro env m opts ds t1 t2 t3 e t4 h1 h2 h3 h4
    unfold MountE
    simp only [h1, h2, h3, h4]
  · intro env m opts ds t1 t2 t3 t4 e t5 h1 h2 h3 h4 h5
    unfold MountE
    simp only [h1, h2, h3, h4, h5]

/-- C1 witness: the step-4 failure case at a concrete environment and
path; the rollbacks of steps 4, 3, 2, 1 appear in reverse order and the
returned error is step 4's. -/
theorem mount_rollback_reverse_order_witness :
    MountE envMountFail "/data/v" emptyOpts =
      (some (wrapE "failed to mount file system in a file"
        (wrapE "failed to execute mount command" "boom")),
       [.createFile "/data/v.json", .writeFile "/data/v.json"] ++
       [.mkdirAll "/data/v.input" DirectoryPermissions] ++
       [.createFile "/data/v.volume", .truncate "/data/v.volume" WriteSpace,
        .execMkfs "ext4" "/data/v.volume"] ++
       [.mkdir "/data/v.mount" DirectoryPermissions,
        .execMount ["/data/v.volume", "/data/v.mount"]] ++
       (unmountFSInFileE envMountFail (getPath "/data/v" RelPathFSInFileMount)).2 ++
       (destroyFSInFileE envMountFail (getPath "/data/v" RelPathFSInFile)).2 ++
       (destroyInputE envMountFail (getPath "/data/v" RelPathInput)).2 ++
       (deleteDatasetOptsE envMountFail (getPath "/data/v" RelPathOptions)).2) :=
  mount_rollback_reverse_order.2.2.2.1 envMountFail "/data/v" emptyOpts ⟨none, none⟩
    [.createFile "/data/v.json", .writeFile "/data/v.json"]
    [.mkdirAll "/data/v.input" DirectoryPermissions]
    [.createFile "/data/v.volume", .truncate "/data/v.volume" WriteSpace,
     .execMkfs "ext4" "/data/v.volume"]
    (wrapE "failed to execute mount command" "boom")
    [.mkdir "/data/v.mount" DirectoryPermissions,
     .execMount ["/data/v.volume", "/data/v.mount"]]
    (by rfl) (by rfl) (by rfl) (by rfl)

/-- Trace and value of a successful sidecar read. -/
theorem readDatasetOptsE_ok_trace (env : Env) (p : String) (ds : datasetOpts)
    (t : List FsAction) (h : readDatasetOptsE env p = (.ok ds, t)) :
    t = [.openFile p, .decodeFile p] ∧ ds = env.storedOpts p := by
  unfold readDatasetOptsE at h
  cases ho : env.openFile p with
  | some e1 =>
    simp only [ho] at h
    exact absurd (congrArg Prod.fst h) (by simp)
  | none =>
    simp only [ho] at h
    cases hd : env.decodeFile p with
    | some e2 =>
      simp only [hd] at h
      exact absurd (congrArg Prod.fst h) (by simp)
    | none =>
      simp only [hd] at h
      refine ⟨(congrArg Prod.snd h).symm, ?_⟩
      have h1 := congrArg Prod.fst h
      simp only [Except.ok.injEq] at h1
      exact h1.symm

/-- The `umount` of the target path is always the first attempted action
of `unmountOverlayFS`. -/
theorem execUmount_mem_unmountOverlayFSE (env : Env) (u w mp : String) :
    FsAction.execUmount mp ∈ (unmountOverlayFSE env u w mp).2 := by
  unfold unmountOverlayFSE
  cases h1 : env.umountCmd mp with
  | some e => simp
  | none =>
    cases h2 : env.removeAll u with
    | some e => simp
    | none =>
      cases h3 : env.removeAll w with
      | some e => simp
      | none => simp

/-- The `umount` of the loopback mount path is always the first
attempted action of `unmountFSInFile`. -/
theorem execUmount_mem_unmountFSInFileE (env : Env) (mp : String) :
    FsAction.execUmount mp ∈ (unmountFSInFileE env mp).2 := by
  unfold unmountFSInFileE
  cases h1 : env.umountCmd mp with
  | some e => simp
  | none =>
    cases h2 : env.removeAll mp with
    | some e => simp
    | none => simp

/-- C2 counterexample: with every operation succeeding except `umount`
of the target path (the `DecomposeOverlay` step), `Unmount` still runs
all the later cleanup steps — the loopback unmount, both removals and
the sidecar deletion all appear in the trace after the failure — and
returns the collected `multierror`, refuting that a failing step makes
`Unmount` return immediately with no later step executing. -/
theorem unmount_no_short_circuit_counterexample :
    UnmountE envOverlayUmountFail "/mnt/x" =
      (some (.multi ["failed to unmount overlayfs: failed to unmount overlayfs: target is busy"]),
       [.openFile "/mnt/x.json", .decodeFile "/mnt/x.json",
        .execUmount "/mnt/x",
        .execUmount "/mnt/x.mount", .removeAll "/mnt/x.mount",
        .removeAll "/mnt/x.volume",
        .removeAll "/mnt/x.input",
        .removeFile "/mnt/x.json"]) := by decide

/-- C2 (amended): a failure of the `Load` or `HandleOutput` step is
wrapped with a step-identifying message and returned immediately, with
no later step executing; a failure of any of the five cleanup steps is
wrapped with a step-identifying message and collected, but all five
cleanup steps always execute, and `Unmount` returns the collected
cleanup errors (success when there are none). -/
theorem unmount_step_errors :
    (∀ (env : Env) (m e : String) (t1 : List FsAction),
      readDatasetOptsE env (getPath m RelPathOptions) = (.error e, t1) →
      UnmountE env m = (some (.msg (wrapE "failed to read volume database" e)), t1)) ∧
    (∀ (env : Env) (m : String) (ds : datasetOpts) (t1 : List FsAction) (e : String)
        (t2 : List FsAction),
      readDatasetOptsE env (getPath m RelPathOptions) = (.ok ds, t1) →
      handleOutputE env m ds.Output = (some e, t2) →
      UnmountE env m = (some (.msg (wrapE "failed to upload output" e)), t1 ++ t2)) ∧
    (∀ (env : Env) (m : String) (ds : datasetOpts) (t1 t2 : List FsAction),
      readDatasetOptsE env (getPath m RelPathOptions) = (.ok ds, t1) →
      handleOutputE env m ds.Output = (none, t2) →
      UnmountE env m =
        ((match cleanupErrs env m with
          | [] => none
          | es => some (.multi es)),
         t1 ++ t2 ++
           (unmountOverlayFSE env (goJoin [getPath m RelPathFSInFileMount, "upper"])
             (goJoin [getPath m RelPathFSInFileMount, "work"]) m).2 ++
           (unmountFSInFileE env (getPath m RelPathFSInFileMount)).2 ++
           (destroyFSInFileE env (getPath m RelPathFSInFile)).2 ++
           (destroyInputE env (getPath m RelPathInput)).2 ++
           (deleteDatasetOptsE env (getPath m RelPathOptions)).2)) ∧
    (∀ (env : Env) (m : String) (ds : datasetOpts) (t1 t2 : List FsAction),
      readDatasetOptsE env (getPath m RelPathOptions) = (.ok ds, t1) →
      handleOutputE env m ds.Output = (none, t2) →
      FsAction.execUmount m ∈ (UnmountE env m).2 ∧
      FsAction.execUmount (getPath m RelPathFSInFileMount) ∈ (UnmountE env m).2 ∧
      FsAction.removeAll (getPath m RelPathFSInFile) ∈ (UnmountE env m).2 ∧
      FsAction.removeAll (getPath m RelPathInput) ∈ (UnmountE env m).2 ∧
      FsAction.removeFile (getPath m RelPathOptions) ∈ (UnmountE env m).2) := by
  have hc : ∀ (env : Env) (m : String) (ds : datasetOpts) (t1 t2 : List FsAction),
      readDatasetOptsE env (getPath m RelPathOptions) = (.ok ds, t1) →
      handleOutputE env m ds.Output = (none, t2) →
      UnmountE env m =
        ((match cleanupErrs env m with
          | [] => none
          | es => some (.multi es)),
         t1 ++ t2 ++
           (unmountOverlayFSE env (goJoin [getPath m RelPathFSInFileMount, "upper"])
             (goJoin [getPath m RelPathFSInFileMount, "work"]) m).2 ++
           (unmountFSInFileE env (getPath m RelPathFSInFileMount)).2 ++
           (destroyFSInFileE env (getPath m RelPathFSInFile)).2 ++
           (destroyInputE env (getPath m RelPathInput)).2 ++
           (deleteDatasetOptsE env (getPath m RelPathOptions)).2) := by
    intro env m ds t1 t2 h1 h2
    unfold UnmountE
    simp only [h1, h2]
  refine ⟨?_, ?_, hc, ?_⟩
  · intro env m e t1 h1
    unfold UnmountE
    rw [h1]
  · intro env m ds t1 e t2 h1 h2
    unfold UnmountE
    simp only [h1, h2]
  · intro env m ds t1 t2 h1 h2
    rw [hc env m ds t1 t2 h1 h2]
    refine ⟨?_, ?_, ?_, ?_, ?_⟩
    · simp only [List.mem_append]
      exact Or.inl (Or.inl (Or.inl (Or.inl (Or.inr
        (execUmount_mem_unmountOverlayFSE env _ _ m)))))
    · simp only [List.mem_append]
      exact Or.inl (Or.inl (Or.inl (Or.inr
        (execUmount_mem_unmountFSInFileE env _))))
    · simp only [List.mem_append]
      exact Or.inl (Or.inl (Or.inr (by simp [destroyFSInFileE])))
    · simp only [List.mem_append]
      exact Or.inl (Or.inr (by simp [destroyInputE]))
    · simp only [List.mem_append]
      exact Or.inr (by simp [deleteDatasetOptsE])

/-- C2 witness: a concrete run in which the upload step fails; `Unmount`
returns the wrapped upload error immediately and no cleanup action is
attempted. -/
theorem unmount_step_errors_witness :
    UnmountE envUploadFail "/mnt/x" =
      (some (.msg (wrapE "failed to upload output"
        (wrapE "failed to upload data to S3" "network error"))),
       [.openFile "/mnt/x.json", .decodeFile "/mnt/x.json"] ++
       [.newS3 "b", .upload ⟨"k", "b"⟩ "/mnt/x"]) :=
  unmount_step_errors.2.1 envUploadFail "/mnt/x" ⟨none, some ⟨"k", "b"⟩⟩
    [.openFile "/mnt/x.json", .decodeFile "/mnt/x.json"]
    (wrapE "failed to upload data to S3" "network error")
    [.newS3 "b", .upload ⟨"k", "b"⟩ "/mnt/x"]
    (by rfl) (by rfl)

/-- C10: when reading the sidecar options file fails during `Unmount`
(absent file or undecodable contents), `Unmount` returns that wrapped
error immediately and the trace contains only the read attempts — no
mutating action (no command, no removal, no write) is performed, so all
on-disk state is untouched. -/
theorem unmount_load_failure_no_teardown (env : Env) (m e : String)
    (t : List FsAction)
    (h : readDatasetOptsE env (getPath m RelPathOptions) = (.error e, t)) :
    UnmountE env m = (some (.msg (wrapE "failed to read volume database" e)), t) ∧
    ∀ a ∈ t, mutating a = false := by
  constructor
  · unfold UnmountE
    rw [h]
  · intro a ha
    unfold readDatasetOptsE at h
    cases ho : env.openFile (getPath m RelPathOptions) with
    | some e1 =>
      simp only [ho] at h
      have ht : t = [.openFile (getPath m RelPathOptions)] := (congrArg Prod.snd h).symm
      rw [ht] at ha
      simp only [List.mem_singleton] at ha
      rw [ha]
      rfl
    | none =>
      simp only [ho] at h
      cases hd : env.decodeFile (getPath m RelPathOptions) with
      | some e2 =>
        simp only [hd] at h
        have ht : t = [.openFile (getPath m RelPathOptions),
            .decodeFile (getPath m RelPathOptions)] := (congrArg Prod.snd h).symm
        rw [ht] at ha
        simp only [List.mem_cons, List.mem_singleton] at ha
        rcases ha with ha | ha | ha
        · rw [ha]; rfl
        · rw [ha]; rfl
        · exact absurd ha (by simp)
      | none =>
        simp only [hd] at h
        exact absurd (congrArg Prod.fst h) (by simp)

/-- C10 witness: a concrete run with an absent sidecar file. -/
theorem unmount_load_failure_witness :
    UnmountE envReadFail "/mnt/x" =
      (some (.msg (wrapE "failed to read volume database"
        (wrapE "failed to open metadata file" "no such file or directory"))),
       [.openFile "/mnt/x.json"]) :=
  (unmount_load_failure_no_teardown envReadFail "/mnt/x"
    (wrapE "failed to open metadata file" "no such file or directory")
    [.openFile "/mnt/x.json"] (by rfl)).1

/-- C9 counterexample: when the `umount` step of `UnmountLoopback`
fails, the recursive removal of the mount path is never attempted (the
trace contains no removal action), refuting that either step failing
still attempts the other. -/
theorem unmount_loopback_counterexample :
    unmountFSInFileE envUmountFail "/mnt/x.mount" =
      (some (wrapE "failed to unmount fs-in-file" "target is busy"),
       [.execUmount "/mnt/x.mount"]) := by decide

/-- C9 (amended): `UnmountLoopback` unmounts and then removes the mount
path recursively; if the unmount fails its wrapped error is returned and
the removal is not attempted, and if the unmount succeeds but the
removal fails the removal's wrapped error is returned — in each case
the first failure encountered is the one reported. -/
theorem unmount_loopback_first_failure :
    (∀ (env : Env) (p d : String), env.umountCmd p = some d →
      unmountFSInFileE env p =
        (some (wrapE "failed to unmount fs-in-file" (goTrim d)), [.execUmount p])) ∧
    (∀ (env : Env) (p e : String), env.umountCmd p = none → env.removeAll p = some e →
      unmountFSInFileE env p =
        (some (wrapE "failed to delete fs-in-file mount point" e),
         [.execUmount p, .removeAll p])) ∧
    (∀ (env : Env) (p : String), env.umountCmd p = none → env.removeAll p = none →
      unmountFSInFileE env p = (none, [.execUmount p, .removeAll p])) := by
  refine ⟨?_, ?_, ?_⟩
  · intro env p d h1
    unfold unmountFSInFileE
    simp only [h1]
  · intro env p e h1 h2
    unfold unmountFSInFileE
    simp only [h1, h2]
  · intro env p h1 h2
    unfold unmountFSInFileE
    simp only [h1, h2]

/-- C9 witness: a concrete run in which the unmount succeeds and the
removal fails; the removal's wrapped error is reported. -/
theorem unmount_loopback_first_failure_witness :
    unmountFSInFileE envRemoveFail "/mnt/x.mount" =
      (some (wrapE "failed to delete fs-in-file mount point" "permission denied"),
       [.execUmount "/mnt/x.mount", .removeAll "/mnt/x.mount"]) :=
  unmount_loopback_first_failure.2.1 envRemoveFail "/mnt/x.mount" "permission denied" rfl rfl

/-- C4: during `Unmount` with a configured output reference, every
`umount` command in the trace — in particular the decomposition of the
overlay at the target path — occurs strictly after the Upload
collaborator call on the pod-visible target path, so the upload always
sees the fully composed overlay contents. -/
theorem unmount_upload_before_decompose (env : Env) (m : String) (ds : datasetOpts)
    (t1 : List FsAction) (r : Ref)
    (hread : readDatasetOptsE env (getPath m RelPathOptions) = (.ok ds, t1))
    (hout : ds.Output = some r) :
    ∀ i p, (UnmountE env m).2.get? i = some (.execUmount p) →
      ∃ j, j < i ∧ (UnmountE env m).2.get? j = some (.upload r m) := by
  obtain ⟨ht1, -⟩ := readDatasetOptsE_ok_trace env _ ds t1 hread
  subst ht1
  intro i p hi
  unfold UnmountE at hi ⊢
  simp only [hread] at hi ⊢
  rw [hout] at hi ⊢
  unfold handleOutputE at hi ⊢
  cases h3 : env.newS3 r.Bucket with
  | some e =>
    simp only [h3] at hi
    have := List.get?_mem hi
    simp at this
  | none =>
    simp only [h3] at hi ⊢
    cases h4 : env.upload r m with
    | some e =>
      simp only [h4] at hi
      have := List.get?_mem hi
      simp at this
    | none =>
      simp only [h4] at hi ⊢
      simp only [List.cons_append, List.nil_append] at hi ⊢
      refine ⟨3, ?_, ?_⟩
      · by_contra hlt
        push_neg at hlt
        interval_cases i <;> simp at hi
      · rfl

/-- C4 witness: on a concrete all-success run, the overlay `umount` of
the target path sits at index 4 of the trace and the Upload call on the
target path strictly precedes it. -/
theorem unmount_upload_before_decompose_witness :
    ∃ j, j < 4 ∧ (UnmountE envOutRef "/mnt/x").2.get? j =
      some (.upload ⟨"k", "b"⟩ "/mnt/x") :=
  unmount_upload_before_decompose envOutRef "/mnt/x" ⟨none, some ⟨"k", "b"⟩⟩
    [.openFile "/mnt/x.json", .decodeFile "/mnt/x.json"] ⟨"k", "b"⟩
    (by rfl) (by rfl) 4 "/mnt/x" (by rfl)

theorem ball_actionOKb_append {l₁ l₂ : List FsAction}
    (h₁ : ∀ a ∈ l₁, actionOKb a = true) (h₂ : ∀ a ∈ l₂, actionOKb a = true) :
    ∀ a ∈ l₁ ++ l₂, actionOKb a = true := by
  intro a ha
  rcases List.mem_append.mp ha with h | h
  · exact h₁ a h
  · exact h₂ a h

theorem actionOKb_writeDatasetOptsE (env : Env) (path : String) (opts : MountOptions) :
    ∀ a ∈ (writeDatasetOptsE env path opts).2, actionOKb a = true := by
  unfold writeDatasetOptsE
  by_cases h1 : opts.InputS3Key ≠ "" ∧ opts.InputS3Bucket = ""
  · simp [h1]
  · by_cases h2 : opts.OutputS3Key ≠ "" ∧ opts.OutputS3Bucket = ""
    · simp [h1, h2]
    · cases h3 : env.createFile path with
      | some e => simp [h1, h2, h3, actionOKb]
      | none =>
        cases h4 : env.encodeTo path with
        | some e => simp [h1, h2, h3, h4, actionOKb]
        | none => simp [h1, h2, h3, h4, actionOKb]

theorem actionOKb_deleteDatasetOptsE (env : Env) (path : String) :
    ∀ a ∈ (deleteDatasetOptsE env path).2, actionOKb a = true := by
  intro a ha
  simp only [deleteDatasetOptsE, List.mem_singleton] at ha
  rw [ha]
  rfl

theorem actionOKb_provisionInputE (env : Env) (path : String) (input : Option Ref) :
    ∀ a ∈ (provisionInputE env path input).2, actionOKb a = true := by
  unfold provisionInputE
  cases h1 : env.mkdirAll path with
  | some e => simp [h1, actionOKb]
  | none =>
    cases input with
    | none => simp [h1, actionOKb]
    | some ref =>
      cases h2 : env.newS3 ref.Bucket with
      | some e => simp [h1, h2, actionOKb]
      | none =>
        cases h3 : env.download ref path with
        | some e => simp [h1, h2, h3, actionOKb]
        | none => simp [h1, h2, h3, actionOKb]

theorem actionOKb_destroyInputE (env : Env) (path : String) :
    ∀ a ∈ (destroyInputE env path).2, actionOKb a = true := by
  intro a ha
  simp only [destroyInputE, List.mem_singleton] at ha
  rw [ha]
  rfl

theorem actionOKb_createFSInFileE (env : Env) (path fs : String) :
    ∀ a ∈ (createFSInFileE env path fs WriteSpace).2, actionOKb a = true := by
  unfold createFSInFileE
  cases h1 : env.createFile path with
  | some e => simp [h1, actionOKb]
  | none =>
    cases h2 : env.truncate path WriteSpace with
    | some e => simp [h1, h2, actionOKb]
    | none =>
      cases h3 : env.mkfs fs path with
      | some d => simp [h1, h2, h3, actionOKb]
      | none => simp [h1, h2, h3, actionOKb]

theorem actionOKb_destroyFSInFileE (env : Env) (path : String) :
    ∀ a ∈ (destroyFSInFileE env path).2, actionOKb a = true := by
  intro a ha
  simp only [destroyFSInFileE, List.mem_singleton] at ha
  rw [ha]
  rfl

theorem actionOKb_mountFSInFileE (env : Env) (vp mp : String) :
    ∀ a ∈ (mountFSInFileE env vp mp).2, actionOKb a = true := by
  unfold mountFSInFileE
  cases h1 : env.mkdir mp with
  | some e => simp [h1, actionOKb]
  | none =>
    cases h2 : env.mountCmd [vp, mp] with
    | some d => simp [h1, h2, actionOKb]
    | none => simp [h1, h2, actionOKb]

theorem actionOKb_unmountFSInFileE (env : Env) (mp : String) :
    ∀ a ∈ (unmountFSInFileE env mp).2, actionOKb a = true := by
  unfold unmountFSInFileE
  cases h1 : env.umountCmd mp with
  | some d => simp [h1, actionOKb]
  | none =>
    cases h2 : env.removeAll mp with
    | some e => simp [h1, h2, actionOKb]
    | none => simp [h1, h2, actionOKb]

theorem actionOKb_mountOverlayFSE (env : Env) (u w lo mp : String) :
    ∀ a ∈ (mountOverlayFSE env u w lo mp).2, actionOKb a = true := by
  unfold mountOverlayFSE
  cases h1 : env.mkdirAll u with
  | some e => simp [h1, actionOKb]
  | none =>
    cases h2 : env.mkdirAll w with
    | some e => simp [h1, h2, actionOKb]
    | none =>
      cases h3 : env.mountCmd (overlayArgs u w lo mp) with
      | some d => simp [h1, h2, h3, actionOKb]
      | none => simp [h1, h2, h3, actionOKb]

theorem actionOKb_unmountOverlayFSE (env : Env) (u w mp : String) :
    ∀ a ∈ (unmountOverlayFSE env u w mp).2, actionOKb a = true := by
  unfold unmountOverlayFSE
  cases h1 : env.umountCmd mp with
  | some d => simp [h1, actionOKb]
  | none =>
    cases h2 : env.removeAll u with
    | some e => simp [h1, h2, actionOKb]
    | none =>
      cases h3 : env.removeAll w with
      | some e => simp [h1, h2, h3, actionOKb]
      | none => simp [h1, h2, h3, actionOKb]

/-- Every action `Mount` ever attempts satisfies the mode/size
invariant. -/
theorem actionOKb_mount (env : Env) (m : String) (opts : MountOptions) :
    ∀ a ∈ (MountE env m opts).2, actionOKb a = true := by
  have hDel := actionOKb_deleteDatasetOptsE env (getPath m RelPathOptions)
  have hDesIn := actionOKb_destroyInputE env (getPath m RelPathInput)
  have hDesFS := actionOKb_destroyFSInFileE env (getPath m RelPathFSInFile)
  have hUnFS := actionOKb_unmountFSInFileE env (getPath m RelPathFSInFileMount)
  have hUnOv := actionOKb_unmountOverlayFSE env
    (goJoin [getPath m RelPathFSInFileMount, "upper"])
    (goJoin [getPath m RelPathFSInFileMount, "work"]) m
  unfold MountE
  have ht1 := actionOKb_writeDatasetOptsE env (getPath m RelPathOptions) opts
  rcases hw : writeDatasetOptsE env (getPath m RelPathOptions) opts with ⟨e1 | ds, t1⟩ <;>
    simp only [hw] at ht1 ⊢
  · exact ball_actionOKb_append ht1 hDel
  · have ht2 := actionOKb_provisionInputE env (getPath m RelPathInput) ds.Input
    rcases hp : provisionInputE env (getPath m RelPathInput) ds.Input with ⟨_ | ep, t2⟩ <;>
      simp only [hp] at ht2 ⊢
    · have ht3 := actionOKb_createFSInFileE env (getPath m RelPathFSInFile) FileSystemExt4
      rcases hf : createFSInFileE env (getPath m RelPathFSInFile) FileSystemExt4 WriteSpace
        with ⟨_ | ef, t3⟩ <;> simp only [hf] at ht3 ⊢
      · have ht4 := actionOKb_mountFSInFileE env (getPath m RelPathFSInFile)
          (getPath m RelPathFSInFileMount)
        rcases hm : mountFSInFileE env (getPath m RelPathFSInFile)
            (getPath m RelPathFSInFileMount) with ⟨_ | em, t4⟩ <;> simp only [hm] at ht4 ⊢
        · have ht5 := actionOKb_mountOverlayFSE env
            (goJoin [getPath m RelPathFSInFileMount, "upper"])
            (goJoin [getPath m RelPathFSInFileMount, "work"]) (getPath m RelPathInput) m
          rcases ho : mountOverlayFSE env (goJoin [getPath m RelPathFSInFileMount, "upper"])
              (goJoin [getPath m RelPathFSInFileMount, "work"]) (getPath m RelPathInput) m
            with ⟨_ | eo, t5⟩ <;> simp only [ho] at ht5 ⊢
          · exact ball_actionOKb_append (ball_actionOKb_append (ball_actionOKb_append
              (ball_actionOKb_append ht1 ht2) ht3) ht4) ht5
          · exact ball_actionOKb_append (ball_actionOKb_append (ball_actionOKb_append
              (ball_actionOKb_append (ball_actionOKb_append (ball_actionOKb_append
                (ball_actionOKb_append (ball_actionOKb_append (ball_actionOKb_append
                  ht1 ht2) ht3) ht4) ht5) hUnOv) hUnFS) hDesFS) hDesIn) hDel
        · exact ball_actionOKb_append (ball_actionOKb_append (ball_actionOKb_append
            (ball_actionOKb_append (ball_actionOKb_append (ball_actionOKb_append
              (ball_actionOKb_append ht1 ht2) ht3) ht4) hUnFS) hDesFS) hDesIn) hDel
      · exact ball_actionOKb_append (ball_actionOKb_append (ball_actionOKb_append
          (ball_actionOKb_append (ball_actionOKb_append ht1 ht2) ht3) hDesFS) hDesIn) hDel
    · exact ball_actionOKb_append (ball_actionOKb_append (ball_actionOKb_append ht1 ht2)
        hDesIn) hDel

/-- C5 counterexample: `ProvisionInput` creates the input directory with
the fixed mode `DirectoryPermissions = 0522`, whose owner-write bit
(bit 7) is clear and whose world-write bit (bit 1) is set — so the mode
does not permit write by the owner and is world-writable, refuting the
claimed mode. -/
theorem provision_input_mode_counterexample :
    (provisionInputE envOK "/mnt/x.input" none).2 =
      [.mkdirAll "/mnt/x.input" DirectoryPermissions] ∧
    permBit DirectoryPermissions 7 = false ∧
    permBit DirectoryPermissions 1 = true := by decide

/-- C5 (amended): `ProvisionInput` always creates the input directory
first, with the fixed mode `DirectoryPermissions = 0522` (owner read and
execute but not write; group write-only; world write-only, hence
world-writable), and the same constant is the mode of every directory
the driver creates during `Mount`. -/
theorem provision_input_dir_mode :
    (∀ (env : Env) (path : String) (input : Option Ref),
      ∃ rest, (provisionInputE env path input).2 =
        .mkdirAll path DirectoryPermissions :: rest) ∧
    (DirectoryPermissions = 0o522 ∧ permBit DirectoryPermissions 8 = true ∧
     permBit DirectoryPermissions 7 = false ∧ permBit DirectoryPermissions 6 = true ∧
     permBit DirectoryPermissions 4 = true ∧ permBit DirectoryPermissions 1 = true) ∧
    (∀ (env : Env) (m : String) (opts : MountOptions) (p : String) (md : Nat),
      (FsAction.mkdir p md ∈ (MountE env m opts).2 ∨
       FsAction.mkdirAll p md ∈ (MountE env m opts).2) → md = DirectoryPermissions) := by
  refine ⟨?_, by decide, ?_⟩
  · intro env path input
    unfold provisionInputE
    cases h1 : env.mkdirAll path with
    | some e =>
      simp only [h1]
      exact ⟨[], rfl⟩
    | none =>
      cases input with
      | none =>
        simp only [h1]
        exact ⟨[], rfl⟩
      | some ref =>
        cases h2 : env.newS3 ref.Bucket with
        | some e =>
          simp only [h1, h2]
          exact ⟨[.newS3 ref.Bucket], rfl⟩
        | none =>
          cases h3 : env.download ref path with
          | some e =>
            simp only [h1, h2, h3]
            exact ⟨[.newS3 ref.Bucket, .download ref path], rfl⟩
          | none =>
            simp only [h1, h2, h3]
            exact ⟨[.newS3 ref.Bucket, .download ref path], rfl⟩
  · intro env m opts p md h
    have hb := actionOKb_mount env m opts
    rcases h with h | h
    · have := hb _ h
      simpa [actionOKb] using this
    · have := hb _ h
      simpa [actionOKb] using this

/-- C5 witness: the concrete mode recorded for the input directory of a
concrete all-success `Mount` run is `DirectoryPermissions`. -/
theorem provision_input_dir_mode_witness : (0o522 : Nat) = DirectoryPermissions :=
  provision_input_dir_mode.2.2 envOK "/mnt/x" emptyOpts "/mnt/x.input" 0o522
    (Or.inr (by decide))

/-- C6: `CreateBackingFile` creates a regular file at the path, extends
it to exactly the requested size, then formats it in place with the
requested filesystem type; when the external `mkfs` exits non-zero the
returned error's message contains the captured (whitespace-trimmed)
stderr diagnostic of the utility; and during `Mount` the size used for
every file extension is the fixed constant `WriteSpace` = 100 MiB. -/
theorem create_backing_file_spec :
    (∀ (env : Env) (path fs : String) (size : Int) (d : String),
      env.createFile path = none → env.truncate path size = none →
      env.mkfs fs path = some d →
      createFSInFileE env path fs size =
        (some (wrapE "failed to execute mkfs command" (goTrim d)),
         [.createFile path, .truncate path size, .execMkfs fs path]) ∧
      ∃ pre, pre ++ (goTrim d).toList =
        (wrapE "failed to execute mkfs command" (goTrim d)).toList) ∧
    (∀ (env : Env) (path fs : String) (size : Int),
      env.createFile path = none → env.truncate path size = none → env.mkfs fs path = none →
      createFSInFileE env path fs size =
        (none, [.createFile path, .truncate path size, .execMkfs fs path])) ∧
    (WriteSpace = 100 * 1024 * 1024 ∧
     ∀ (env : Env) (m : String) (opts : MountOptions) (p : String) (sz : Int),
       FsAction.truncate p sz ∈ (MountE env m opts).2 → sz = WriteSpace) := by
  refine ⟨?_, ?_, rfl, ?_⟩
  · intro env path fs size d h1 h2 h3
    constructor
    · unfold createFSInFileE
      simp only [h1, h2, h3]
    · exact ⟨("failed to execute mkfs command: ").toList, rfl⟩
  · intro env path fs size h1 h2 h3
    unfold createFSInFileE
    simp only [h1, h2, h3]
  · intro env m opts p sz h
    have := actionOKb_mount env m opts _ h
    simpa [actionOKb] using this

/-- C6 witness: a concrete failing `mkfs` run; the error message carries
the trimmed stderr diagnostic. -/
theorem create_backing_file_spec_witness :
    createFSInFileE envMkfsFail "/mnt/x.volume" "ext4" WriteSpace =
      (some (wrapE "failed to execute mkfs command" (goTrim "mke2fs: no such device\n")),
       [.createFile "/mnt/x.volume", .truncate "/mnt/x.volume" WriteSpace,
        .execMkfs "ext4" "/mnt/x.volume"]) ∧
    ∃ pre, pre ++ (goTrim "mke2fs: no such device\n").toList =
      (wrapE "failed to execute mkfs command" (goTrim "mke2fs: no such device\n")).toList :=
  create_backing_file_spec.1 envMkfsFail "/mnt/x.volume" "ext4" WriteSpace
    "mke2fs: no such device\n" rfl rfl rfl

/-- Decoding inverts encoding on `datasetOpts`. -/
theorem decodeDatasetOpts_encode (ds : datasetOpts) :
    decodeDatasetOpts (encodeDatasetOpts ds) = .ok ds := by
  rcases ds with ⟨i, o⟩
  cases i <;> cases o <;> rfl

/-- Reading a path just written yields the decoded stored value. -/
theorem readDatasetOptsS_after_write (st : Store) (path : String) (v : datasetOpts) :
    readDatasetOptsS (fun p => if p = path then some (encodeDatasetOpts v) else st p) path =
      .ok v := by
  unfold readDatasetOptsS
  have hbeta : (fun p => if p = path then some (encodeDatasetOpts v) else st p) path =
      some (encodeDatasetOpts v) := by simp
  rw [hbeta]
  simp only [decodeDatasetOpts_encode]

/-- C7: for every sidecar path and options that pass validation (a
bucket is present whenever the corresponding key is), `Save` followed by
`Load` on the same path returns exactly the dataset options that were
saved — the input and output references round-trip. -/
theorem sidecar_save_load_roundtrip (st : Store) (path : String) (opts : MountOptions)
    (h1 : ¬(opts.InputS3Key ≠ "" ∧ opts.InputS3Bucket = ""))
    (h2 : ¬(opts.OutputS3Key ≠ "" ∧ opts.OutputS3Bucket = "")) :
    ∃ ds st', writeDatasetOptsS st path opts = .ok (ds, st') ∧
      readDatasetOptsS st' path = .ok ds := by
  have key : writeDatasetOptsS st path opts = .ok
      ({ Input := if opts.InputS3Key ≠ "" then some ⟨opts.InputS3Key, opts.InputS3Bucket⟩
            else none
         Output := if opts.OutputS3Key ≠ "" then some ⟨opts.OutputS3Key, opts.OutputS3Bucket⟩
            else none },
       fun p => if p = path then some (encodeDatasetOpts
         { Input := if opts.InputS3Key ≠ "" then some ⟨opts.InputS3Key, opts.InputS3Bucket⟩
              else none
           Output := if opts.OutputS3Key ≠ "" then some ⟨opts.OutputS3Key, opts.OutputS3Bucket⟩
              else none }) else st p) := by
    unfold writeDatasetOptsS
    rw [if_neg h1, if_neg h2]
  exact ⟨_, _, key, readDatasetOptsS_after_write st path _⟩

/-- C7 witness: a concrete round-trip with both references configured. -/
theorem sidecar_save_load_roundtrip_witness :
    ∃ ds st', writeDatasetOptsS (fun _ => none) "/mnt/x.json" ⟨"ik", "ib", "osk", "ob"⟩ =
        .ok (ds, st') ∧
      readDatasetOptsS st' "/mnt/x.json" = .ok ds :=
  sidecar_save_load_roundtrip (fun _ => none) "/mnt/x.json" ⟨"ik", "ib", "osk", "ob"⟩
    (by decide) (by decide)

/-- C8 counterexample: at the mount path `"/a/b/"` (trailing separator)
with suffix `"input"`, `getPath` yields `"/a/b.input"` while joining the
parent directory (`filepath.Dir`, `"/a/b"`) with `basename + "." +
suffix` yields `"/a/b/b.input"` — the two differ, refuting the equation
for every mount path. -/
theorem derived_path_counterexample :
    getPath "/a/b/" "input" ≠ specDerivedPath "/a/b/" "input" := by decide

/-- C8 (amended): on every cleaned absolute mount path `/c₁/…/cₙ/b`
(each component nonempty, separator-free and not `"."` or `".."` — the
form of every kubelet-supplied mount path) and normal suffix name,
`getPath` is a pure function of the mount path and suffix alone, equal
to joining the parent directory with `basename + "." + name` (both equal
`/c₁/…/cₙ/b.<name>`), and `Mount` and `Unmount` compute identical
derived path tuples for the same mount path. -/
theorem derived_path_pure_function :
    (∀ (cs : List (List Char)) (b s : List Char),
      (∀ c ∈ cs, normalCompL c) → normalCompL b → normalCompL s →
      getPath (absPath (cs ++ [b])) (String.mk s) =
          specDerivedPath (absPath (cs ++ [b])) (String.mk s) ∧
      getPath (absPath (cs ++ [b])) (String.mk s) = absPath (cs ++ [b ++ '.' :: s])) ∧
    (∀ m, mountDerivedPaths m = unmountDerivedPaths m) := by
  constructor
  · intro cs b s hcs hb hs
    constructor
    · rw [getPath_structured cs b s hcs hb hs, specDerivedPath_structured cs b s hcs hb hs]
    · exact getPath_structured cs b s hcs hb hs
  · intro m
    rfl

/-- C8 witness: the concrete mount path `/mnt/x` with suffix `input`. -/
theorem derived_path_pure_function_witness :
    getPath (absPath [['m', 'n', 't'], ['x']]) (String.mk ['i', 'n', 'p', 'u', 't']) =
        specDerivedPath (absPath [['m', 'n', 't'], ['x']])
          (String.mk ['i', 'n', 'p', 'u', 't']) ∧
    getPath (absPath [['m', 'n', 't'], ['x']]) (String.mk ['i', 'n', 'p', 'u', 't']) =
      absPath [['m', 'n', 't'], ['x'] ++ '.' :: ['i', 'n', 'p', 'u', 't']] :=
  derived_path_pure_function.1 [['m', 'n', 't']] ['x'] ['i', 'n', 'p', 'u', 't']
    (by decide) (by decide) (by decide)

end Flex
